import Mathlib

/-!
Shallow embedding of the streaming resilience layer of the simulator-ui
repository: the `SSEClient` utility (src/infrastructure/utils/sse-client.ts)
and the adapter fallback pattern replicated across the REST adapters
(src/infrastructure/adapters/rest-trading.ts and the risk / market-data
adapters).  Each definition is translated directly from the cited source
lines; JavaScript `Map`/`Set` state is modelled by insertion-ordered
association lists, timers by explicit armed-timer sets, and `try`/`catch`
by `Except` with explicit recovery.
-/

namespace SSEModel

/-- Handlers are identified by opaque ids (JS function object identity). -/
abbrev HandlerId := Nat

/-- JS `Set.add`: insertion-ordered, a no-op when the element is present. -/
def setAdd (l : List HandlerId) (h : HandlerId) : List HandlerId :=
  if h ∈ l then l else l ++ [h]

/-- JS `Set.delete`: removes the element (all occurrences; a `Set` holds at
most one). -/
def setDelete (l : List HandlerId) (h : HandlerId) : List HandlerId :=
  l.filter (fun x => x ≠ h)

/-- The client's `messageHandlers : Map<string, Set<SSEMessageHandler>>`,
as an insertion-ordered association list. -/
abbrev Reg := List (String × List HandlerId)

/-- JS `Map.get` (first binding for the key). -/
def regGet : Reg → String → Option (List HandlerId)
  | [], _ => none
  | (k, v) :: rest, ev => if k = ev then some v else regGet rest ev

/-- Replace the value bound to `ev` (JS `Map` mutation of an existing key). -/
def regSet : Reg → String → List HandlerId → Reg
  | [], _, _ => []
  | (k, v) :: rest, ev, l =>
    if k = ev then (ev, l) :: regSet rest ev l else (k, v) :: regSet rest ev l

/-- JS `Map.delete ev`. -/
def regErase : Reg → String → Reg
  | [], _ => []
  | (k, v) :: rest, ev =>
    if k = ev then regErase rest ev else (k, v) :: regErase rest ev

/-- Keys of the map, in insertion order. -/
def regKeys (r : Reg) : List String := r.map Prod.fst

/-- Well-formedness of a JS `Map`: keys are unique.  Every map built by the
client has this shape. -/
def regWF (r : Reg) : Prop := (regKeys r).Nodup

/-- State effect of `SSEClient.on` (sse-client.ts lines 122-129): create the
set for the event type if absent (appended in insertion order), then add
the handler to it. -/
def regOn (r : Reg) (ev : String) (h : HandlerId) : Reg :=
  match regGet r ev with
  | none => r ++ [(ev, [h])]
  | some l => regSet r ev (setAdd l h)

/-- The unsubscribe closure returned by `SSEClient.on` (lines 130-138):
look the set up (a no-op if the entry is gone), delete the handler, and
drop the whole entry when the set empties. -/
def regUnsub (r : Reg) (ev : String) (h : HandlerId) : Reg :=
  match regGet r ev with
  | none => r
  | some l =>
    let l' := setDelete l h
    if l' = [] then regErase r ev else regSet r ev l'

/-! Low-level listener binding (claim C2).  `setupEventHandlers`
(lines 197-231) runs once per `createEventSource`: it installs the default
`onmessage` handler unconditionally, and an `addEventListener(eventType, ...)`
for each event type present in `messageHandlers` at that moment, skipping
"message".  `SSEClient.on` itself (lines 122-139) only touches
`messageHandlers`. -/

/-- Listener-binding view of the client: whether a transport exists and is
open, which event types have a low-level `addEventListener` bound on the
current transport, and the live handler registry. -/
structure BindState where
  isOpen : Bool
  bound : List String
  reg : Reg
deriving Repr, DecidableEq

/-- `SSEClient.on` (lines 122-139): updates the registry only; no low-level
listener is bound, whatever the connection state. -/
def BindState.on (st : BindState) (ev : String) (h : HandlerId) : BindState :=
  { st with reg := regOn st.reg ev h }

/-- Event types bound by `setupEventHandlers` (lines 223-231): the types
registered at connection time, except the default "message". -/
def setupEventHandlersBound (r : Reg) : List String :=
  (regKeys r).filter (fun e => e ≠ "message")

/-- Transport creation (`createEventSource`, lines 179-195) as seen by the
binding view: binds the default handler and one listener per currently
registered type; here followed by a successful open. -/
def BindState.connect (st : BindState) : BindState :=
  { st with isOpen := true, bound := setupEventHandlersBound st.reg }

/-- Which handlers a frame of type `ev` arriving on the current connection
is dispatched to: the default `onmessage` covers type "message"; any other
type reaches `handleMessage` only through a bound low-level listener.  In
both cases `handleMessage` (line 262) reads the live registry. -/
def BindState.deliverTo (st : BindState) (ev : String) : List HandlerId :=
  if ev = "message" ∨ ev ∈ st.bound then (regGet st.reg ev).getD [] else []

/-! Reconnection backoff (claim C6), from `scheduleReconnect`
(lines 305-311):
  baseDelay = reconnectDelay * 2 ^ (reconnectAttempts - 1)
  jitter    = Math.random() * 1000
  delay     = min (baseDelay + jitter) maxReconnectDelay
Delays are modelled as rationals; `attempt` is the post-increment value of
`reconnectAttempts`, so it is at least 1. -/

/-- Delay scheduled for the given reconnect attempt under the given jitter
draw (`Math.random() * 1000` ranges over `[0, 1000)`). -/
def backoffDelay (reconnectDelay maxReconnectDelay : ℚ) (attempt : Nat)
    (jitter : ℚ) : ℚ :=
  min (reconnectDelay * 2 ^ (attempt - 1) + jitter) maxReconnectDelay

/-! Dispatch of one inbound frame (claims C7 and C9), from `handleMessage`
(lines 251-277).  The source captures `const handlers =
this.messageHandlers.get(eventType)` and runs `handlers.forEach` on that
live `Set`, with a per-handler `try`/`catch` that logs and continues.  JS
`Set.forEach` iterates insertion order over the live set: an element
deleted before being visited is never visited.  The only mutations the
claims exercise are unsubscriptions performed by handlers mid-dispatch
(via the closures from `SSEClient.on`), so a handler's behaviour is
modelled as a list of unsubscribe calls followed by an optional throw. -/

/-- Observable behaviour of one registered handler when it is invoked:
which unsubscribe closures it calls (pairs of event type and handler id),
and whether it then throws. -/
structure HandlerBeh where
  unsubs : List (String × HandlerId)
  throws : Bool
deriving Repr, DecidableEq

/-- Observable effects of one dispatch. -/
inductive DispatchEff
  | invoked (h : HandlerId)
  | handlerErrorLogged (h : HandlerId)
deriving Repr, DecidableEq

/-- Invoking one handler: its body runs (performing its unsubscriptions)
and either returns or throws. -/
def invokeHandler (b : HandlerBeh) : Except Unit Unit :=
  if b.throws then Except.error () else Except.ok ()

/-- Apply a handler's unsubscribe calls to the registry, keeping the
captured set of the type being dispatched in sync (the captured `Set` and
the registry entry are the same JS object while the entry exists). -/
def applyUnsubs (ev : String) : List (String × HandlerId) →
    List HandlerId → Reg → List HandlerId × Reg
  | [], cur, r => (cur, r)
  | (e, h) :: rest, cur, r =>
      applyUnsubs ev rest (if e = ev then setDelete cur h else cur) (regUnsub r e h)

/-- Elements of the live set not visited yet by the `forEach` iterator. -/
def notVisited (visited : List HandlerId) : HandlerId → Bool :=
  fun x => decide (x ∉ visited)

/-- The `handlers.forEach` loop of `handleMessage` (lines 263-270) on the
live set: visit, in insertion order, each element not yet visited; invoke
it inside `try`/`catch` (a throwing handler is logged, never propagated);
apply its unsubscriptions; continue.  Fuel bounds the iteration (the
initial set size suffices, since handlers here only delete). -/
def forEachLive (beh : HandlerId → HandlerBeh) (ev : String) :
    Nat → List HandlerId → List HandlerId → Reg → List DispatchEff × Reg
  | 0, _, _, r => ([], r)
  | fuel + 1, cur, visited, r =>
    match cur.find? (notVisited visited) with
    | none => ([], r)
    | some h =>
      let caught := match invokeHandler (beh h) with
        | Except.ok _ => [DispatchEff.invoked h]
        | Except.error _ => [DispatchEff.invoked h, DispatchEff.handlerErrorLogged h]
      let pr := applyUnsubs ev (beh h).unsubs cur r
      let rest := forEachLive beh ev fuel pr.1 (visited ++ [h]) pr.2
      (caught ++ rest.1, rest.2)

/-- `handleMessage` for a frame of type `ev` (lines 251-277): look up the
live set for the type and run the live-set `forEach`.  Total result: the
outer `try`/`catch` absorbs decode failures and the inner one absorbs
handler throws, so nothing propagates into the transport's event code. -/
def handleMessage (beh : HandlerId → HandlerBeh) (ev : String) (r : Reg) :
    Except Unit (List DispatchEff × Reg) :=
  match regGet r ev with
  | none => Except.ok ([], r)
  | some cur => Except.ok (forEachLive beh ev cur.length cur [] r)

/-- Handlers actually invoked during a dispatch, in order. -/
def invokedOf (effs : List DispatchEff) : List HandlerId :=
  effs.filterMap (fun e => match e with
    | DispatchEff.invoked h => some h
    | _ => none)

/-! Error reporting (claim C3).  The kinds of `Error` the client itself
creates, one per construction site in the source. -/

/-- Error kinds raised inside the client, by message string:
`ctorFailed` = "Failed to create EventSource: ...", `connError` =
"SSE connection error", `timeoutErr` = "SSE connection timeout",
`maxReached` = "Max reconnection attempts (N) reached", `parseFailed` =
"Failed to parse SSE message: ...". -/
inductive ErrKind
  | ctorFailed
  | connError
  | timeoutErr
  | maxReached
  | parseFailed
deriving Repr, DecidableEq

/-- Observable effects of the error paths: hooks invoked (by registration
index), a throwing hook caught and logged, a reconnect timer armed, the
transport constructed, the transport closed. -/
inductive HookEff
  | hookCalled (i : Nat) (e : ErrKind)
  | hookThrewLogged (i : Nat)
  | reconnectArmed
  | attemptMade
  | transportClosed
deriving Repr, DecidableEq

/-- Invoking one user error hook (its behaviour: `true` = it throws): the
hook observes the error, then either returns or throws. -/
def invokeErrorHook (i : Nat) (e : ErrKind) (throws : Bool) :
    List HookEff × Except Unit Unit :=
  ([HookEff.hookCalled i e],
   if throws then Except.error () else Except.ok ())

/-- The `errorHandlers.forEach` loop of `handleError` (lines 288-294):
each hook is invoked inside `try`/`catch`; a throwing hook is logged and
the loop continues. -/
def handleErrorLoop (e : ErrKind) : Nat → List Bool → List HookEff
  | _, [] => []
  | i, throws :: rest =>
    let (effs, res) := invokeErrorHook i e throws
    let caught := effs ++ (match res with
      | Except.ok _ => []
      | Except.error _ => [HookEff.hookThrewLogged i])
    caught ++ handleErrorLoop e (i + 1) rest

/-- `handleError` (lines 286-295): log, then deliver the error to every
registered hook (`hooks` lists their behaviours in registration order).
Total, whatever the hooks do. -/
def handleError (hooks : List Bool) (e : ErrKind) : List HookEff :=
  handleErrorLoop e 0 hooks

/-- Connection-level state for the `Except`-structured model of the error
paths (claim C3). -/
structure CState where
  hasES : Bool
  manual : Bool
  reconnectAttempts : Nat
  maxAttempts : Nat
  timerArmed : Bool
deriving Repr, DecidableEq

/-- `scheduleReconnect` (lines 297-318), effect view: suppressed after
manual disconnect; at the attempt cap it reports the terminal error (via
`handleError`) and schedules nothing; otherwise it increments the counter
and arms the backoff timer.  Nothing here can throw. -/
def scheduleReconnectC (hooks : List Bool) (c : CState) :
    CState × List HookEff :=
  if c.manual then (c, [])
  else if c.maxAttempts ≤ c.reconnectAttempts then
    (c, handleError hooks ErrKind.maxReached)
  else
    ({ c with reconnectAttempts := c.reconnectAttempts + 1, timerArmed := true },
     [HookEff.reconnectArmed])

/-- `createEventSource` (lines 179-195): the whole body sits in a
`try`/`catch`; a synchronous `new EventSource` throw (modelled by
`ctorThrows`) is caught and routed to `handleError` then
`scheduleReconnect`, so the function itself never throws. -/
def createEventSourceC (ctorThrows : Bool) (hooks : List Bool) (c : CState) :
    Except Unit (CState × List HookEff) :=
  match (if ctorThrows then Except.error () else Except.ok () :
          Except Unit Unit) with
  | Except.ok _ => Except.ok ({ c with hasES := true }, [HookEff.attemptMade])
  | Except.error _ =>
    let effs := handleError hooks ErrKind.ctorFailed
    let pr := scheduleReconnectC hooks c
    Except.ok (pr.1, effs ++ pr.2)

/-- `connect` (lines 97-107): warn-and-return if a transport exists, else
clear the manual flag and build the transport. -/
def connectC (ctorThrows : Bool) (hooks : List Bool) (c : CState) :
    Except Unit (CState × List HookEff) :=
  if c.hasES then Except.ok (c, [])
  else createEventSourceC ctorThrows hooks { c with manual := false }

/-- The `onerror` callback for a transport failure that closed the
connection (lines 204-214): report via `handleError`, clean up (closing
the transport), and schedule a reconnect unless manually disconnected.
The open/close lifecycle hooks take no arguments and are modelled as
returning normally; the error hooks may throw. -/
def transportErrorCallbackC (hooks : List Bool) (c : CState) :
    Except Unit (CState × List HookEff) :=
  let effs := handleError hooks ErrKind.connError
  let c' := { c with hasES := false }
  let closeEffs := [HookEff.transportClosed]
  if c'.manual then Except.ok (c', effs ++ closeEffs)
  else
    let pr := scheduleReconnectC hooks c'
    Except.ok (pr.1, effs ++ closeEffs ++ pr.2)

/-- The connection-timeout guard body when it finds the transport still
connecting (lines 234-240): report the timeout via `handleError`, clean
up, schedule a reconnect. -/
def timeoutCallbackC (hooks : List Bool) (c : CState) :
    Except Unit (CState × List HookEff) :=
  let effs := handleError hooks ErrKind.timeoutErr
  let c' := { c with hasES := false }
  let pr := scheduleReconnectC hooks c'
  Except.ok (pr.1, effs ++ [HookEff.transportClosed] ++ pr.2)

/-- Whether an `Except` completed normally. -/
def exceptOk {α : Type} : Except Unit α → Bool
  | Except.ok _ => true
  | Except.error _ => false

/-- Indices of the hooks a list of effects delivered an error to. -/
def calledIdxs (effs : List HookEff) : List Nat :=
  effs.filterMap (fun e => match e with
    | HookEff.hookCalled i _ => some i
    | _ => none)

/-! Whole-client timer machine (claims C4, C5, C8).  Timers are explicit:
`reconnectTimer` mirrors the tracked client field of the same name, while
the connection-timeout guard timers are locals of `setupConnectionTimeout`
(line 234), so the machine keeps them in a separate armed set `guards`
that `cleanup` (lines 326-334) never touches — exactly as in the source,
where `cleanup` closes the transport and clears only `reconnectTimer`.
Each guard is tagged with the generation of the transport whose `open`
listener would clear it.  Real durations are abstracted away: a timer can
fire whenever it is armed. -/

/-- `EventSource.readyState`. -/
inductive ESState
  | connecting
  | opened
  | closed
deriving Repr, DecidableEq

/-- Observable effects of a machine run, in emission order. -/
inductive MEff
  | attempt
  | errorReported (e : ErrKind)
  | transportClosed
  | reconnectArmed (attempt : Nat)
  | openedHooks
deriving Repr, DecidableEq

/-- Client state plus armed timers and an effect trace.  `es` holds the
transport's ready state and its generation; `guards` the armed
connection-timeout timers as (timer id, transport generation); `nextId`
supplies fresh ids; `attempts` counts `new EventSource` constructions. -/
structure Machine where
  es : Option (ESState × Nat)
  reconnectAttempts : Nat
  reconnectTimer : Option Nat
  manual : Bool
  maxAttempts : Nat
  guards : List (Nat × Nat)
  nextId : Nat
  attempts : Nat
  trace : List MEff
deriving Repr, DecidableEq

/-- Fresh client for the given `maxReconnectAttempts`. -/
def Machine.init (maxAttempts : Nat) : Machine :=
  { es := none, reconnectAttempts := 0, reconnectTimer := none,
    manual := false, maxAttempts := maxAttempts, guards := [],
    nextId := 0, attempts := 0, trace := [] }

/-- Append one observable effect. -/
def Machine.emit (m : Machine) (e : MEff) : Machine :=
  { m with trace := m.trace ++ [e] }

/-- `clearReconnectTimer` (lines 320-324). -/
def Machine.clearReconnectTimer (m : Machine) : Machine :=
  { m with reconnectTimer := none }

/-- `cleanup` (lines 326-334): close and null the transport if present
(firing the close hooks), then clear the reconnect timer.  The guard
timers are locals and are not touched. -/
def Machine.cleanup (m : Machine) : Machine :=
  Machine.clearReconnectTimer
    (match m.es with
     | some _ => { m with es := none, trace := m.trace ++ [MEff.transportClosed] }
     | none => m)

/-- `scheduleReconnect` (lines 297-318).  The backoff duration is
`backoffDelay`; the machine abstracts real time and records only that the
timer was armed, with the attempt number it was armed for. -/
def Machine.scheduleReconnect (m : Machine) : Machine :=
  if m.manual then m
  else if m.maxAttempts ≤ m.reconnectAttempts then
    m.emit (MEff.errorReported ErrKind.maxReached)
  else
    { m with reconnectAttempts := m.reconnectAttempts + 1,
             reconnectTimer := some m.nextId,
             nextId := m.nextId + 1,
             trace := m.trace ++ [MEff.reconnectArmed (m.reconnectAttempts + 1)] }

/-- `createEventSource`, success path (lines 179-195): construct the
transport (generation `nextId`, state CONNECTING), attach the handlers,
and arm a fresh connection-timeout guard (`setupConnectionTimeout`,
lines 233-249) tied to this transport's `open` event. -/
def Machine.createEventSource (m : Machine) : Machine :=
  { m with es := some (ESState.connecting, m.nextId),
           guards := m.guards ++ [(m.nextId + 1, m.nextId)],
           nextId := m.nextId + 2,
           attempts := m.attempts + 1,
           trace := m.trace ++ [MEff.attempt] }

/-- `connect` (lines 97-107). -/
def Machine.connect (m : Machine) : Machine :=
  if m.es.isSome then m
  else Machine.createEventSource { m with manual := false }

/-- `disconnect` (lines 114-117): set the manual flag, then `cleanup`. -/
def Machine.disconnect (m : Machine) : Machine :=
  Machine.cleanup { m with manual := true }

/-- External stimuli: the public calls, the transport lifecycle events,
and timer expirations (by timer id). -/
inductive MEv
  | connect
  | disconnect
  | transportError
  | transportOpen
  | guardFire (tid : Nat)
  | reconnectFire (tid : Nat)
deriving Repr, DecidableEq

/-- One machine step.  `transportError` models the browser moving a failed
connection to CLOSED and firing `onerror` (lines 204-214).
`transportOpen` models the `open` event: `onopen` (lines 199-203) resets
the attempt counter, clears the reconnect timer and fires the open hooks,
and the guard's own `open` listener (lines 243-248) disarms the guards of
this transport.  A timer expiry is a no-op unless that timer is armed;
firing disarms it (one-shot).  The guard body re-checks the CURRENT
transport's ready state (line 235). -/
def Machine.step (m : Machine) : MEv → Machine
  | MEv.connect => m.connect
  | MEv.disconnect => m.disconnect
  | MEv.transportError =>
    match m.es with
    | none => m
    | some (_, g) =>
      let m1 := Machine.cleanup
        (Machine.emit { m with es := some (ESState.closed, g) }
          (MEff.errorReported ErrKind.connError))
      if m1.manual then m1 else m1.scheduleReconnect
  | MEv.transportOpen =>
    match m.es with
    | some (ESState.connecting, g) =>
      { m with es := some (ESState.opened, g),
               reconnectAttempts := 0,
               reconnectTimer := none,
               guards := m.guards.filter (fun p => p.2 ≠ g),
               trace := m.trace ++ [MEff.openedHooks] }
    | _ => m
  | MEv.guardFire tid =>
    if m.guards.any (fun p => p.1 = tid) then
      let m1 := { m with guards := m.guards.filter (fun p => p.1 ≠ tid) }
      match m1.es with
      | some (ESState.connecting, _) =>
        Machine.scheduleReconnect
          (Machine.cleanup (m1.emit (MEff.errorReported ErrKind.timeoutErr)))
      | _ => m1
    else m
  | MEv.reconnectFire tid =>
    match m.reconnectTimer with
    | some t =>
      if t = tid then
        Machine.createEventSource { m with reconnectTimer := none }
      else m
    | none => m

/-- Run a list of stimuli. -/
def Machine.steps (m : Machine) (evs : List MEv) : Machine :=
  evs.foldl Machine.step m

/-- The scenario of claim C5: `maxReconnectAttempts = 2`, three
consecutive connection failures (each reconnect timer fires and the new
attempt fails again). -/
def runC5 : Machine :=
  (Machine.init 2).steps
    [MEv.connect, MEv.transportError, MEv.reconnectFire 2,
     MEv.transportError, MEv.reconnectFire 5, MEv.transportError]

/-! Adapter fallback pattern (claims C1 and C10), from
`RestTrading.subscribeToPositionUpdates` (rest-trading.ts lines 100-160);
`subscribeToOrderUpdates`, `subscribeToRiskUpdates` (risk adapter) and
`subscribeTopriceUpdates` (market-data adapter) repeat it verbatim up to
event names and fetch method. -/

/-- Observable effects of an adapter subscribe call. -/
inductive AdapterEff
  | clientCreated
  | subscribed (ev : String)
  | errorHookRegistered
  | fallbackLogged
  | pollerStarted (intervalMs : Nat)
  | warnLogged
  | callbackInvoked (v : Nat)
deriving Repr, DecidableEq

/-- Result of an adapter `subscribeToX` call: the effects performed and
the interval of the fallback poller if one was started. -/
structure SubscribeResult where
  effs : List AdapterEff
  pollerInterval : Option Nat
deriving Repr, DecidableEq

/-- `subscribeToPositionUpdates` (lines 100-160): inside `try`, create and
connect the stream client, subscribe the two event types, register the
error hook, and return the stream cleanup; in `catch` (a synchronous
construction throw), log and start a 5000 ms poller. -/
def subscribeToPositionUpdates (ctorThrows : Bool) : SubscribeResult :=
  if ctorThrows then
    { effs := [AdapterEff.fallbackLogged, AdapterEff.pollerStarted 5000],
      pollerInterval := some 5000 }
  else
    { effs := [AdapterEff.clientCreated, AdapterEff.subscribed "position",
               AdapterEff.subscribed "positions", AdapterEff.errorHookRegistered],
      pollerInterval := none }

/-- The error hook the adapter registers on its stream client
(rest-trading.ts lines 129-132; identically lines 155-157 of the risk
adapter and 453-455 of the market-data adapter): it logs a warning and
does nothing else — in particular it never starts a poller, whatever the
error (including the terminal `maxReached`). -/
def adapterErrorHook (e : ErrKind) : List AdapterEff :=
  [AdapterEff.warnLogged]

/-- One tick of the fallback poller (lines 147-153): fetch via the
adapter's own request method (`getOpenPositions` here) and forward each
result to the supplied callback. -/
def pollerTick (fetched : List Nat) : List AdapterEff :=
  fetched.map AdapterEff.callbackInvoked

/-- Adapter-side state the two cleanup closures act on: the stream
client's registry and machine (stream path), or the poller's interval
timer (poll path, where `sseClient` stayed null). -/
structure AdapterState where
  reg : Reg
  client : Machine
deriving Repr, DecidableEq

/-- The cleanup returned on the stream path (lines 134-139): invoke both
unsubscribe closures, then `sseClient?.disconnect()`. -/
def streamCleanup (h1 h2 : HandlerId) (a : AdapterState) : AdapterState :=
  { reg := regUnsub (regUnsub a.reg "position" h1) "positions" h2,
    client := a.client.disconnect }

/-- The cleanup returned on the polling path (lines 154-157):
`clearInterval(intervalId)`; `sseClient?.disconnect()` is a no-op there
because the construction threw before `sseClient` was assigned. -/
def pollCleanup (pollTimer : Option Nat) : Option Nat :=
  none

/-! Helper lemmas about the registry. -/

theorem regGet_regSet_of_get {r : Reg} {ev : String} {l l' : List HandlerId}
    (hg : regGet r ev = some l) : regGet (regSet r ev l') ev = some l' := by
  induction r with
  | nil => simp [regGet] at hg
  | cons p rest ih =>
    obtain ⟨k, v⟩ := p
    by_cases hk : k = ev
    · subst hk
      simp [regGet, regSet]
    · simp only [regGet, if_neg hk] at hg
      simpa [regGet, regSet, if_neg hk, hk] using ih hg

theorem regSet_regSet (r : Reg) (ev : String) (l l' : List HandlerId) :
    regSet (regSet r ev l) ev l' = regSet r ev l' := by
  induction r with
  | nil => rfl
  | cons p rest ih =>
    obtain ⟨k, v⟩ := p
    by_cases hk : k = ev
    · subst hk
      simpa [regSet] using ih
    · simpa [regSet, if_neg hk, hk] using ih

theorem regGet_regErase (r : Reg) (ev : String) :
    regGet (regErase r ev) ev = none := by
  induction r with
  | nil => rfl
  | cons p rest ih =>
    obtain ⟨k, v⟩ := p
    by_cases hk : k = ev
    · subst hk
      simpa [regErase] using ih
    · simpa [regErase, regGet, hk] using ih

theorem regGet_regSet_ne {ev ev' : String} (hne : ev' ≠ ev)
    (r : Reg) (l : List HandlerId) :
    regGet (regSet r ev l) ev' = regGet r ev' := by
  induction r with
  | nil => rfl
  | cons p rest ih =>
    obtain ⟨k, v⟩ := p
    by_cases hk : k = ev
    · subst hk
      simp [regSet, regGet, if_neg (Ne.symm hne), Ne.symm hne]
      exact ih
    · by_cases hk' : k = ev' <;> simp [regSet, regGet, if_neg hk, hk, hk', hne] <;>
        exact ih

theorem regGet_regErase_ne {ev ev' : String} (hne : ev' ≠ ev)
    (r : Reg) : regGet (regErase r ev) ev' = regGet r ev' := by
  induction r with
  | nil => rfl
  | cons p rest ih =>
    obtain ⟨k, v⟩ := p
    by_cases hk : k = ev
    · subst hk
      simp [regErase, regGet, Ne.symm hne]
      exact ih
    · by_cases hk' : k = ev' <;> simp [regErase, regGet, hk, hk', hne] <;> exact ih

theorem regGet_regUnsub_ne {ev ev' : String} (hne : ev' ≠ ev)
    (r : Reg) (h : HandlerId) :
    regGet (regUnsub r ev h) ev' = regGet r ev' := by
  unfold regUnsub
  cases hg : regGet r ev with
  | none => rfl
  | some l =>
    by_cases hl : setDelete l h = [] <;>
      simp [hl, regGet_regSet_ne hne, regGet_regErase_ne hne]

theorem setDelete_of_not_mem {l : List HandlerId} {h : HandlerId}
    (hm : h ∉ l) : setDelete l h = l := by
  unfold setDelete
  refine List.filter_eq_self.mpr ?_
  intro a ha
  simp only [decide_eq_true_eq]
  intro hah
  exact hm (hah ▸ ha)

theorem not_mem_setDelete (l : List HandlerId) (h : HandlerId) :
    h ∉ setDelete l h := by
  unfold setDelete
  intro hmem
  have := List.of_mem_filter hmem
  simp at this

theorem regSet_of_not_mem_keys {r : Reg} {ev : String}
    (hm : ev ∉ regKeys r) (l : List HandlerId) : regSet r ev l = r := by
  induction r with
  | nil => rfl
  | cons p rest ih =>
    obtain ⟨k, v⟩ := p
    simp only [regKeys, List.map_cons, List.mem_cons] at hm
    push_neg at hm
    have hk : k ≠ ev := fun he => hm.1 he.symm
    simp [regSet, if_neg hk, hk, ih (by simpa [regKeys] using hm.2)]

theorem regSet_self {r : Reg} {ev : String} {l : List HandlerId}
    (wf : regWF r) (hg : regGet r ev = some l) : regSet r ev l = r := by
  induction r with
  | nil => simp [regGet] at hg
  | cons p rest ih =>
    obtain ⟨k, v⟩ := p
    simp only [regWF, regKeys, List.map_cons, List.nodup_cons] at wf
    by_cases hk : k = ev
    · subst hk
      have hg' : v = l := by simpa [regGet] using hg
      subst hg'
      have : regSet rest k v = rest :=
        regSet_of_not_mem_keys (by simpa [regKeys] using wf.1) v
      simp [regSet, this]
    · simp only [regGet, if_neg hk] at hg
      have : regWF rest := by simpa [regWF, regKeys] using wf.2
      simp [regSet, if_neg hk, hk, ih this hg]

/-- Stability of a (type, handler) pair in the registry: either no entry
for the type, or the handler is absent from a nonempty entry.  In a stable
well-formed registry the unsubscribe closure is a no-op. -/
def regStable (r : Reg) (ev : String) (h : HandlerId) : Prop :=
  match regGet r ev with
  | none => True
  | some l => h ∉ l ∧ l ≠ []

theorem regUnsub_noop {r : Reg} {ev : String} {h : HandlerId}
    (wf : regWF r) (st : regStable r ev h) : regUnsub r ev h = r := by
  unfold regUnsub
  cases hg : regGet r ev with
  | none => rfl
  | some l =>
    unfold regStable at st
    rw [hg] at st
    have hdel : setDelete l h = l := setDelete_of_not_mem st.1
    simp only [hdel, if_neg st.2]
    exact regSet_self wf hg

theorem regStable_regUnsub (r : Reg) (ev : String) (h : HandlerId) :
    regStable (regUnsub r ev h) ev h := by
  unfold regStable regUnsub
  cases hg : regGet r ev with
  | none => simp [hg]
  | some l =>
    by_cases hd : setDelete l h = []
    · simp [hg, hd, regGet_regErase]
    · simp only [hg, if_neg hd]
      rw [regGet_regSet_of_get hg]
      exact ⟨not_mem_setDelete l h, hd⟩

theorem regStable_regUnsub_ne {r : Reg} {ev ev' : String}
    {h h' : HandlerId} (hne : ev ≠ ev') (st : regStable r ev h) :
    regStable (regUnsub r ev' h') ev h := by
  unfold regStable
  rw [regGet_regUnsub_ne hne]
  exact st

theorem regKeys_regSet (r : Reg) (ev : String) (l : List HandlerId) :
    regKeys (regSet r ev l) = regKeys r := by
  induction r with
  | nil => rfl
  | cons p rest ih =>
    obtain ⟨k, v⟩ := p
    by_cases hk : k = ev
    · subst hk
      simp [regSet, regKeys] at ih ⊢
      exact ih
    · simp [regSet, if_neg hk, hk, regKeys] at ih ⊢
      exact ih

theorem regKeys_regErase_sublist (r : Reg) (ev : String) :
    (regKeys (regErase r ev)).Sublist (regKeys r) := by
  induction r with
  | nil => simp [regErase, regKeys]
  | cons p rest ih =>
    obtain ⟨k, v⟩ := p
    by_cases hk : k = ev
    · subst hk
      simp only [regErase, if_pos rfl, regKeys, List.map_cons]
      exact ih.cons k
    · simp only [regErase, if_neg hk, regKeys, List.map_cons]
      exact ih.cons₂ k

theorem regWF_regUnsub {r : Reg} (wf : regWF r) (ev : String)
    (h : HandlerId) : regWF (regUnsub r ev h) := by
  unfold regUnsub
  cases hg : regGet r ev with
  | none => exact wf
  | some l =>
    by_cases hd : setDelete l h = []
    · simp only [if_pos hd]
      exact (regKeys_regErase_sublist r ev).nodup wf
    · simp only [if_neg hd]
      unfold regWF
      rw [regKeys_regSet]
      exact wf

theorem regUnsub_idem {r : Reg} (wf : regWF r) (ev : String)
    (h : HandlerId) :
    regUnsub (regUnsub r ev h) ev h = regUnsub r ev h :=
  regUnsub_noop (regWF_regUnsub wf ev h) (regStable_regUnsub r ev h)

theorem mem_setAdd_self (l : List HandlerId) (h : HandlerId) :
    h ∈ setAdd l h := by
  unfold setAdd
  by_cases hm : h ∈ l <;> simp [hm]

theorem regGet_append_of_none {r : Reg} {ev : String}
    (hg : regGet r ev = none) (s : Reg) :
    regGet (r ++ s) ev = regGet s ev := by
  induction r with
  | nil => rfl
  | cons p rest ih =>
    obtain ⟨k, v⟩ := p
    by_cases hk : k = ev
    · simp [regGet, hk] at hg
    · simp only [regGet, if_neg hk] at hg
      simpa [regGet, if_neg hk, hk] using ih hg

theorem regGet_regOn_self (r : Reg) (ev : String) (h : HandlerId) :
    regGet (regOn r ev h) ev = some (setAdd ((regGet r ev).getD []) h) := by
  unfold regOn
  cases hg : regGet r ev with
  | none =>
    rw [regGet_append_of_none hg]
    simp [regGet, setAdd]
  | some l =>
    simpa using regGet_regSet_of_get hg

/-! Helper lemmas about the live-set dispatch loop. -/

theorem invokedOf_append (a b : List DispatchEff) :
    invokedOf (a ++ b) = invokedOf a ++ invokedOf b := by
  unfold invokedOf
  exact List.filterMap_append ..

theorem find?_eq_head?_filter (l : List HandlerId) (p : HandlerId → Bool) :
    l.find? p = (l.filter p).head? := by
  induction l with
  | nil => rfl
  | cons a rest ih =>
    cases hp : p a
    · rw [List.find?_cons_of_neg _ (by simp [hp]),
        List.filter_cons_of_neg (by simp [hp]), ih]
    · rw [List.find?_cons_of_pos _ hp, List.filter_cons_of_pos hp,
        List.head?_cons]

theorem notVisited_append (visited : List HandlerId) (h x : HandlerId) :
    notVisited (visited ++ [h]) x = (decide (x ≠ h) && notVisited visited x) := by
  unfold notVisited
  by_cases h1 : x ∈ visited <;> by_cases h2 : x = h <;> simp [h1, h2]

theorem filter_notVisited_append (cur visited : List HandlerId)
    (h : HandlerId) :
    cur.filter (notVisited (visited ++ [h])) =
      (cur.filter (notVisited visited)).filter (fun x => decide (x ≠ h)) := by
  rw [List.filter_filter]
  exact List.filter_congr (fun x _ => notVisited_append visited h x)

theorem step_filter_self {cur visited rest : List HandlerId}
    {h : HandlerId} (hnd : cur.Nodup)
    (hfil : cur.filter (notVisited visited) = h :: rest) :
    cur.filter (notVisited (visited ++ [h])) = rest := by
  rw [filter_notVisited_append, hfil]
  have hnod : (cur.filter (notVisited visited)).Nodup := hnd.filter _
  rw [hfil] at hnod
  have hh : h ∉ rest := (List.nodup_cons.mp hnod).1
  rw [List.filter_cons_of_neg (by simp)]
  refine List.filter_eq_self.mpr ?_
  intro x hx
  simp only [decide_eq_true_eq]
  intro hxh
  exact hh (hxh ▸ hx)

theorem step_filter_delete {cur visited rest : List HandlerId}
    {h : HandlerId} (hnd : cur.Nodup)
    (hfil : cur.filter (notVisited visited) = h :: rest) :
    (setDelete cur h).filter (notVisited (visited ++ [h])) = rest := by
  unfold setDelete
  rw [List.filter_filter]
  have hpt : ∀ x ∈ cur,
      (notVisited (visited ++ [h]) x && decide (x ≠ h)) =
        notVisited (visited ++ [h]) x := by
    intro x _
    rw [notVisited_append]
    cases hd : decide (x ≠ h) <;> simp [hd]
  rw [List.filter_congr hpt]
  exact step_filter_self hnd hfil

theorem forEachLive_invoked_nodup (beh : HandlerId → HandlerBeh)
    (ev : String) :
    ∀ (fuel : Nat) (cur visited : List HandlerId) (r : Reg),
      (invokedOf (forEachLive beh ev fuel cur visited r).1).Nodup ∧
      ∀ x ∈ invokedOf (forEachLive beh ev fuel cur visited r).1,
        x ∉ visited := by
  intro fuel
  induction fuel with
  | zero => intro cur visited r; simp [forEachLive, invokedOf]
  | succ fuel ih =>
    intro cur visited r
    cases hf : cur.find? (notVisited visited) with
    | none => simp [forEachLive, hf, invokedOf]
    | some h =>
      have hnv : h ∉ visited := by
        have := List.find?_some hf
        unfold notVisited at this
        exact of_decide_eq_true this
      simp only [forEachLive, hf]
      have hih := ih (applyUnsubs ev (beh h).unsubs cur r).1 (visited ++ [h])
        (applyUnsubs ev (beh h).unsubs cur r).2
      have hinv : invokedOf
          ((match invokeHandler (beh h) with
            | Except.ok _ => [DispatchEff.invoked h]
            | Except.error _ =>
              [DispatchEff.invoked h, DispatchEff.handlerErrorLogged h])) = [h] := by
        cases hb : (beh h).throws <;> simp [invokeHandler, hb, invokedOf]
      rw [invokedOf_append, hinv]
      constructor
      · refine List.nodup_cons.mpr ⟨?_, hih.1⟩
        intro hmem
        exact (hih.2 h hmem) (by simp)
      · intro x hx
        rcases List.mem_cons.mp hx with hxh | hxr
        · exact hxh ▸ hnv
        · have := hih.2 x hxr
          intro hxv
          exact this (by simp [hxv])

/-- Per-handler effect pattern of one dispatch when no unsubscription
interferes: the handler is invoked, and logged if it threw. -/
def effOf (beh : HandlerId → HandlerBeh) (h : HandlerId) : List DispatchEff :=
  DispatchEff.invoked h ::
    (if (beh h).throws then [DispatchEff.handlerErrorLogged h] else [])

theorem forEachLive_self_unsub (beh : HandlerId → HandlerBeh) (ev : String)
    (hb : ∀ h, (beh h).unsubs = [] ∨ (beh h).unsubs = [(ev, h)]) :
    ∀ (fuel : Nat) (cur visited : List HandlerId) (r : Reg), cur.Nodup →
      (cur.filter (notVisited visited)).length ≤ fuel →
      invokedOf (forEachLive beh ev fuel cur visited r).1 =
        cur.filter (notVisited visited) := by
  intro fuel
  induction fuel with
  | zero =>
    intro cur visited r _ hlen
    rw [List.length_eq_zero.mp (Nat.le_zero.mp hlen)]
    simp [forEachLive, invokedOf]
  | succ fuel ih =>
    intro cur visited r hnd hlen
    cases hfil : cur.filter (notVisited visited) with
    | nil =>
      have hf : cur.find? (notVisited visited) = none := by
        rw [find?_eq_head?_filter, hfil]
        rfl
      simp [forEachLive, hf, invokedOf]
    | cons h rest =>
      have hf : cur.find? (notVisited visited) = some h := by
        rw [find?_eq_head?_filter, hfil]
        rfl
      simp only [forEachLive, hf]
      have hinv : invokedOf
          ((match invokeHandler (beh h) with
            | Except.ok _ => [DispatchEff.invoked h]
            | Except.error _ =>
              [DispatchEff.invoked h, DispatchEff.handlerErrorLogged h])) = [h] := by
        cases hb' : (beh h).throws <;> simp [invokeHandler, hb', invokedOf]
      rw [invokedOf_append, hinv]
      have hlen' : rest.length ≤ fuel := by
        have := hlen
        rw [hfil] at this
        simpa using this
      rcases hb h with hu | hu
      · have hpr : applyUnsubs ev (beh h).unsubs cur r = (cur, r) := by
          rw [hu]
          rfl
        rw [hpr]
        have := ih cur (visited ++ [h]) r hnd
          (by rw [step_filter_self hnd hfil]; exact hlen')
        rw [this, step_filter_self hnd hfil]
        rfl
      · have hpr : applyUnsubs ev (beh h).unsubs cur r =
            (setDelete cur h, regUnsub r ev h) := by
          rw [hu]
          simp [applyUnsubs]
        rw [hpr]
        have hnd' : (setDelete cur h).Nodup := hnd.filter _
        have := ih (setDelete cur h) (visited ++ [h]) (regUnsub r ev h) hnd'
          (by rw [step_filter_delete hnd hfil]; exact hlen')
        rw [this, step_filter_delete hnd hfil]
        rfl

theorem forEachLive_no_unsub (beh : HandlerId → HandlerBeh) (ev : String)
    (hu : ∀ h, (beh h).unsubs = []) :
    ∀ (fuel : Nat) (cur visited : List HandlerId) (r : Reg), cur.Nodup →
      (cur.filter (notVisited visited)).length ≤ fuel →
      forEachLive beh ev fuel cur visited r =
        ((cur.filter (notVisited visited)).flatMap (effOf beh), r) := by
  intro fuel
  induction fuel with
  | zero =>
    intro cur visited r _ hlen
    rw [List.length_eq_zero.mp (Nat.le_zero.mp hlen)]
    simp [forEachLive]
  | succ fuel ih =>
    intro cur visited r hnd hlen
    cases hfil : cur.filter (notVisited visited) with
    | nil =>
      have hf : cur.find? (notVisited visited) = none := by
        rw [find?_eq_head?_filter, hfil]
        rfl
      simp [forEachLive, hf]
    | cons h rest =>
      have hf : cur.find? (notVisited visited) = some h := by
        rw [find?_eq_head?_filter, hfil]
        rfl
      simp only [forEachLive, hf]
      have hpr : applyUnsubs ev (beh h).unsubs cur r = (cur, r) := by
        rw [hu h]
        rfl
      rw [hpr]
      have hlen' : rest.length ≤ fuel := by
        have := hlen
        rw [hfil] at this
        simpa using this
      have hrec := ih cur (visited ++ [h]) r hnd
        (by rw [step_filter_self hnd hfil]; exact hlen')
      rw [hrec, step_filter_self hnd hfil]
      have hcaught : (match invokeHandler (beh h) with
          | Except.ok _ => [DispatchEff.invoked h]
          | Except.error _ =>
            [DispatchEff.invoked h, DispatchEff.handlerErrorLogged h]) =
          effOf beh h := by
        cases hb : (beh h).throws <;> simp [invokeHandler, hb, effOf]
      rw [hcaught]
      simp

/-! Helper lemmas about error-hook delivery. -/

theorem calledIdxs_append (a b : List HookEff) :
    calledIdxs (a ++ b) = calledIdxs a ++ calledIdxs b := by
  unfold calledIdxs
  exact List.filterMap_append ..

theorem calledIdxs_handleErrorLoop (e : ErrKind) (hooks : List Bool) :
    ∀ i : Nat, calledIdxs (handleErrorLoop e i hooks) = List.range' i hooks.length := by
  induction hooks with
  | nil => intro i; simp [handleErrorLoop, calledIdxs]
  | cons throws rest ih =>
    intro i
    have hrec := ih (i + 1)
    unfold calledIdxs at hrec ⊢
    cases throws <;>
      simp [handleErrorLoop, invokeErrorHook, List.filterMap_append, hrec,
        List.range']

/-- Every registered error hook is invoked, in registration order, by one
`handleError` call — whatever the hooks do. -/
theorem calledIdxs_handleError (hooks : List Bool) (e : ErrKind) :
    calledIdxs (handleError hooks e) = List.range hooks.length := by
  unfold handleError
  rw [calledIdxs_handleErrorLoop]
  exact (List.range_eq_range' hooks.length).symm

/-! Helper lemmas about the timer machine. -/

/-- State after the client has gone quiescent: no transport, no reconnect
timer.  `disconnect` and attempt exhaustion both land here. -/
def MInv (m : Machine) : Prop := m.es = none ∧ m.reconnectTimer = none

theorem step_quiescent {m : Machine} (hi : MInv m) {e : MEv}
    (hne : e ≠ MEv.connect) :
    (m.step e).attempts = m.attempts ∧ MInv (m.step e) := by
  obtain ⟨hes, htm⟩ := hi
  cases e with
  | connect => exact absurd rfl hne
  | disconnect =>
    simp [Machine.step, Machine.disconnect, Machine.cleanup, hes,
      Machine.clearReconnectTimer, MInv]
  | transportError => simp [Machine.step, hes, MInv, htm]
  | transportOpen => simp [Machine.step, hes, MInv, htm]
  | guardFire tid =>
    by_cases hg : m.guards.any (fun p => p.1 = tid)
    · simp [Machine.step, hg, hes, MInv, htm]
    · simp [Machine.step, hg, hes, MInv, htm]
  | reconnectFire tid => simp [Machine.step, htm, MInv, hes]

theorem steps_quiescent {m : Machine} (hi : MInv m) {evs : List MEv}
    (hne : ∀ e ∈ evs, e ≠ MEv.connect) :
    (m.steps evs).attempts = m.attempts ∧ MInv (m.steps evs) := by
  induction evs generalizing m with
  | nil => exact ⟨rfl, hi⟩
  | cons e rest ih =>
    have h1 := step_quiescent hi (hne e (by simp))
    have h2 := ih h1.2 (fun x hx => hne x (by simp [hx]))
    unfold Machine.steps at h2 ⊢
    simp only [List.foldl_cons]
    exact ⟨h2.1.trans h1.1, h2.2⟩

theorem guardFire_effects {m : Machine} {g tid : Nat}
    (hes : m.es = some (ESState.connecting, g))
    (harm : m.guards.any (fun p => p.1 = tid) = true) :
    (m.step (MEv.guardFire tid)).trace =
      m.trace ++ [MEff.errorReported ErrKind.timeoutErr, MEff.transportClosed] ++
        (if m.manual then []
         else if m.maxAttempts ≤ m.reconnectAttempts then
           [MEff.errorReported ErrKind.maxReached]
         else [MEff.reconnectArmed (m.reconnectAttempts + 1)]) := by
  by_cases hm : m.manual
  · simp [Machine.step, harm, hes, Machine.emit, Machine.cleanup,
      Machine.clearReconnectTimer, Machine.scheduleReconnect, hm]
  · by_cases hc : m.maxAttempts ≤ m.reconnectAttempts
    · simp [Machine.step, harm, hes, Machine.emit, Machine.cleanup,
        Machine.clearReconnectTimer, Machine.scheduleReconnect, hm, hc]
    · simp [Machine.step, harm, hes, Machine.emit, Machine.cleanup,
        Machine.clearReconnectTimer, Machine.scheduleReconnect, hm, hc]

theorem open_disarms_guard {m : Machine} {g tid : Nat}
    (hes : m.es = some (ESState.connecting, g))
    (hall : ∀ p ∈ m.guards, p.1 = tid → p.2 = g) :
    (m.step MEv.transportOpen).guards.any (fun p => p.1 = tid) = false := by
  rw [List.any_eq_false]
  intro p hp
  have hstep : (m.step MEv.transportOpen).guards =
      m.guards.filter (fun p => p.2 ≠ g) := by
    simp [Machine.step, hes]
  rw [hstep] at hp
  have hmem := List.mem_filter.mp hp
  simp only [decide_eq_true_eq] at hmem ⊢
  intro h1
  exact hmem.2 (hall p hmem.1 h1)

theorem guardFire_noop {m : Machine} {tid : Nat}
    (hun : m.guards.any (fun p => p.1 = tid) = false) :
    m.step (MEv.guardFire tid) = m := by
  simp [Machine.step, hun]

theorem hookCalled_mem_handleErrorLoop (e : ErrKind) (hooks : List Bool) :
    ∀ (s i : Nat), i < hooks.length →
      HookEff.hookCalled (s + i) e ∈ handleErrorLoop e s hooks := by
  induction hooks with
  | nil => intro s i hi; simp at hi
  | cons throws rest ih =>
    intro s i hi
    cases i with
    | zero =>
      cases throws <;> simp [handleErrorLoop, invokeErrorHook]
    | succ i =>
      have hrec := ih (s + 1) i (by simpa using hi)
      have harith : s + 1 + i = s + (i + 1) := by omega
      rw [harith] at hrec
      cases throws <;> simp [handleErrorLoop, invokeErrorHook] <;> exact hrec

theorem hookCalled_mem_handleError {hooks : List Bool} {i : Nat}
    (hi : i < hooks.length) (e : ErrKind) :
    HookEff.hookCalled i e ∈ handleError hooks e := by
  have := hookCalled_mem_handleErrorLoop e hooks 0 i hi
  simpa [handleError] using this

theorem filter_notVisited_nil (cur : List HandlerId) :
    cur.filter (notVisited []) = cur := by
  refine List.filter_eq_self.mpr ?_
  intro x _
  simp [notVisited]

/-! Claim theorems and their witnesses. -/

/-- Claim C1 (code_bug evaluation).  The spec and the repository's own
SSE-IMPLEMENTATION.md say the adapters fall back to polling both when
construction throws synchronously AND when the stream client later
reports terminal reconnection failure through the registered error hook.
Evaluating the code at the second trigger: the registered hook
(`adapterErrorHook`, rest-trading.ts lines 129-132) only logs a warning
on the terminal `maxReached` error and starts no poller; only the
synchronous-throw path starts the 5000 ms poller that forwards each
fetched result to the callback. -/
theorem c1_adapter_fallback_eval :
    adapterErrorHook ErrKind.maxReached = [AdapterEff.warnLogged] ∧
    (∀ n : Nat, AdapterEff.pollerStarted n ∉ adapterErrorHook ErrKind.maxReached) ∧
    (subscribeToPositionUpdates true).pollerInterval = some 5000 ∧
    AdapterEff.pollerStarted 5000 ∈ (subscribeToPositionUpdates true).effs ∧
    (subscribeToPositionUpdates false).pollerInterval = none ∧
    pollerTick [7, 9] =
      [AdapterEff.callbackInvoked 7, AdapterEff.callbackInvoked 9] := by
  refine ⟨rfl, ?_, rfl, by decide, rfl, rfl⟩
  intro n
  simp [adapterErrorHook]

/-- Claim C2 (counterexample).  A client connects with no registered
event types, then `on("price", h)` is called while the transport is
open: contrary to the claim, no low-level listener for "price" is bound
lazily, so a "price" frame arriving afterward on the current connection
is dispatched to nobody, although the handler is in the registry. -/
theorem c2_lazy_binding_counterexample :
    (BindState.on (BindState.connect ⟨false, [], []⟩) "price" 7).isOpen = true ∧
    (BindState.on (BindState.connect ⟨false, [], []⟩) "price" 7).bound = [] ∧
    regGet (BindState.on (BindState.connect ⟨false, [], []⟩) "price" 7).reg
      "price" = some [7] ∧
    (BindState.on (BindState.connect ⟨false, [], []⟩) "price" 7).deliverTo
      "price" = [] := by
  refine ⟨rfl, rfl, by decide, by decide⟩

/-- Claim C2 (amended).  `SSEClient.on` never binds a low-level listener:
the bound set is unchanged by subscription, whatever the connection
state.  Low-level listeners exist only for the types registered at
connection time (plus the default "message" type); for those types — and
only those — a handler subscribed afterward does receive frames, because
dispatch reads the live registry. -/
theorem c2_binding_at_connect_amended :
    ∀ (st : BindState) (ev : String) (h : HandlerId),
      (st.on ev h).bound = st.bound ∧
      (ev = "message" ∨ ev ∈ st.bound → h ∈ (st.on ev h).deliverTo ev) := by
  intro st ev h
  refine ⟨rfl, ?_⟩
  intro hcond
  unfold BindState.deliverTo
  have hb : (st.on ev h).bound = st.bound := rfl
  rw [hb, if_pos hcond]
  show h ∈ (regGet (regOn st.reg ev h) ev).getD []
  rw [regGet_regOn_self]
  exact mem_setAdd_self _ _

theorem c2_binding_at_connect_amended_witness :
    (BindState.on ⟨true, ["price"], []⟩ "price" 3).bound = ["price"] ∧
    3 ∈ (BindState.on ⟨true, ["price"], []⟩ "price" 3).deliverTo "price" := by
  have h := c2_binding_at_connect_amended ⟨true, ["price"], []⟩ "price" 3
  exact ⟨h.1, h.2 (Or.inr (by decide))⟩

/-- Claim C3 (confirmed).  Construction failure, transport error and
connection timeout are all handled internally: the `connect` call and the
two internal callbacks complete normally (`Except.ok`) for every state
and every error-hook behaviour, including hooks that throw; and
`handleError` delivers the error to every registered hook in
registration order.  In each of the three paths the corresponding error
kind reaches every hook. -/
theorem c3_errors_hooked_never_thrown :
    ∀ (ctorThrows : Bool) (hooks : List Bool) (c : CState),
      exceptOk (connectC ctorThrows hooks c) = true ∧
      exceptOk (transportErrorCallbackC hooks c) = true ∧
      exceptOk (timeoutCallbackC hooks c) = true ∧
      (∀ e, calledIdxs (handleError hooks e) = List.range hooks.length) ∧
      (∀ i, i < hooks.length → c.hasES = false →
        ∃ st effs, connectC true hooks c = Except.ok (st, effs) ∧
          HookEff.hookCalled i ErrKind.ctorFailed ∈ effs) ∧
      (∀ i, i < hooks.length → c.manual = false →
        ∃ st effs, transportErrorCallbackC hooks c = Except.ok (st, effs) ∧
          HookEff.hookCalled i ErrKind.connError ∈ effs) ∧
      (∀ i, i < hooks.length →
        ∃ st effs, timeoutCallbackC hooks c = Except.ok (st, effs) ∧
          HookEff.hookCalled i ErrKind.timeoutErr ∈ effs) := by
  intro ctorThrows hooks c
  refine ⟨?_, ?_, ?_, fun e => calledIdxs_handleError hooks e, ?_, ?_, ?_⟩
  · by_cases hes : c.hasES <;> cases ctorThrows <;>
      simp [connectC, createEventSourceC, exceptOk, hes]
  · by_cases hm : c.manual <;>
      simp [transportErrorCallbackC, exceptOk, hm]
  · simp [timeoutCallbackC, exceptOk]
  · intro i hi hes
    refine ⟨(scheduleReconnectC hooks { c with manual := false }).1,
      handleError hooks ErrKind.ctorFailed ++
        (scheduleReconnectC hooks { c with manual := false }).2, ?_, ?_⟩
    · simp [connectC, createEventSourceC, hes]
    · exact List.mem_append_left _ (hookCalled_mem_handleError hi _)
  · intro i hi hm
    refine ⟨(scheduleReconnectC hooks { c with hasES := false }).1,
      handleError hooks ErrKind.connError ++ [HookEff.transportClosed] ++
        (scheduleReconnectC hooks { c with hasES := false }).2, ?_, ?_⟩
    · simp [transportErrorCallbackC, hm]
    · exact List.mem_append_left _
        (List.mem_append_left _ (hookCalled_mem_handleError hi _))
  · intro i hi
    refine ⟨(scheduleReconnectC hooks { c with hasES := false }).1,
      handleError hooks ErrKind.timeoutErr ++ [HookEff.transportClosed] ++
        (scheduleReconnectC hooks { c with hasES := false }).2, rfl, ?_⟩
    exact List.mem_append_left _
      (List.mem_append_left _ (hookCalled_mem_handleError hi _))

theorem c3_errors_hooked_never_thrown_witness :
    exceptOk (connectC true [true, false] ⟨false, false, 0, 5, false⟩) = true ∧
    calledIdxs (handleError [true, false] ErrKind.connError) = [0, 1] ∧
    ∃ st effs, timeoutCallbackC [true, false] ⟨false, false, 0, 5, false⟩ =
      Except.ok (st, effs) ∧ HookEff.hookCalled 0 ErrKind.timeoutErr ∈ effs := by
  have h := c3_errors_hooked_never_thrown true [true, false]
    ⟨false, false, 0, 5, false⟩
  refine ⟨h.1, ?_, h.2.2.2.2.2.2 0 (by norm_num)⟩
  rw [h.2.2.2.1 ErrKind.connError]
  decide

/-- Claim C4 (confirmed).  When the guard expires on a transport still
CONNECTING, the emitted effect order is: timeout error reported (a kind
distinct from the post-open `connError`), then the half-open transport
closed, and only then any reconnect scheduling (or the terminal report,
or nothing after a manual stop).  And once the `open` event has disarmed
the guard, firing its timer is a strict no-op: the whole state, trace
included, is unchanged. -/
theorem c4_timeout_guard :
    ErrKind.timeoutErr ≠ ErrKind.connError ∧
    (∀ (m : Machine) (g tid : Nat),
      m.es = some (ESState.connecting, g) →
      m.guards.any (fun p => p.1 = tid) = true →
      (m.step (MEv.guardFire tid)).trace =
        m.trace ++
          [MEff.errorReported ErrKind.timeoutErr, MEff.transportClosed] ++
          (if m.manual then []
           else if m.maxAttempts ≤ m.reconnectAttempts then
             [MEff.errorReported ErrKind.maxReached]
           else [MEff.reconnectArmed (m.reconnectAttempts + 1)])) ∧
    (∀ (m : Machine) (g tid : Nat),
      m.es = some (ESState.connecting, g) →
      (∀ p ∈ m.guards, p.1 = tid → p.2 = g) →
      (m.step MEv.transportOpen).step (MEv.guardFire tid) =
        m.step MEv.transportOpen ∧
      (m.step MEv.transportOpen).trace = m.trace ++ [MEff.openedHooks]) := by
  refine ⟨by decide, ?_, ?_⟩
  · intro m g tid hes harm
    exact guardFire_effects hes harm
  · intro m g tid hes hall
    refine ⟨guardFire_noop (open_disarms_guard hes hall), ?_⟩
    simp [Machine.step, hes]

theorem c4_timeout_guard_witness :
    (((Machine.init 5).step MEv.connect).step (MEv.guardFire 1)).trace =
      [MEff.attempt, MEff.errorReported ErrKind.timeoutErr,
        MEff.transportClosed, MEff.reconnectArmed 1] ∧
    (((Machine.init 5).step MEv.connect).step MEv.transportOpen).step
        (MEv.guardFire 1) =
      ((Machine.init 5).step MEv.connect).step MEv.transportOpen := by
  have h := c4_timeout_guard
  constructor
  · have h1 := h.2.1 ((Machine.init 5).step MEv.connect) 0 1
      (by decide) (by decide)
    rw [h1]
    decide
  · exact (h.2.2 ((Machine.init 5).step MEv.connect) 0 1
      (by decide) (by decide)).1

/-- Claim C5 (confirmed).  With `maxReconnectAttempts = 2` and three
consecutive connection failures, exactly 3 transport constructions occur
(1 initial + 2 retries), the terminal max-reached error is reported
exactly once, and no reconnect timer is left armed; moreover from that
state no later events short of a fresh `connect()` call ever produce
another connection attempt. -/
theorem c5_attempt_budget :
    runC5.attempts = 3 ∧
    (runC5.trace.filter
      (fun e => e = MEff.errorReported ErrKind.maxReached)).length = 1 ∧
    runC5.reconnectTimer = none ∧
    (∀ evs : List MEv, (∀ e ∈ evs, e ≠ MEv.connect) →
      (runC5.steps evs).attempts = runC5.attempts) := by
  refine ⟨by decide, by decide, by decide, ?_⟩
  intro evs hne
  exact (steps_quiescent (by constructor <;> decide) hne).1

theorem c5_attempt_budget_witness :
    runC5.attempts = 3 ∧
    (runC5.steps [MEv.transportError, MEv.guardFire 1,
      MEv.reconnectFire 9]).attempts = 3 := by
  have h := c5_attempt_budget
  refine ⟨h.1, ?_⟩
  have h2 := h.2.2.2 [MEv.transportError, MEv.guardFire 1, MEv.reconnectFire 9]
    (by decide)
  rw [h2, h.1]

/-- Claim C6 (counterexample).  The claim asserts the scheduled delays
are non-decreasing in the attempt number for EVERY jitter draw in
`[0, 1000)`, with no restriction on the configured `reconnectDelay`.
With `reconnectDelay = 100` (a legal construction) the first delay under
jitter 999 exceeds the second delay under jitter 0, so the sequence can
strictly decrease. -/
theorem c6_monotonicity_counterexample :
    (0 : ℚ) ≤ 999 ∧ (999 : ℚ) < 1000 ∧ (0 : ℚ) ≤ 0 ∧ (0 : ℚ) < 1000 ∧
    backoffDelay 100 30000 2 0 < backoffDelay 100 30000 1 999 := by
  refine ⟨by norm_num, by norm_num, le_refl 0, by norm_num, ?_⟩
  norm_num [backoffDelay, min_def]

/-- Claim C6 (amended).  The Nth delay equals
`min (reconnectDelay * 2 ^ (N - 1) + jitter) maxReconnectDelay` with the
jitter drawn from `[0, 1000)` (this is the definition of `backoffDelay`,
taken from the source); every delay is bounded by `maxReconnectDelay`
for every draw; and the sequence is non-decreasing in N for every draw
provided `reconnectDelay` is at least the 1000 ms jitter bound — which
holds for the default (1000) and every adapter configuration (2000). -/
theorem c6_backoff_amended :
    (∀ (d maxD j : ℚ) (n : Nat), backoffDelay d maxD n j ≤ maxD) ∧
    (∀ (d maxD j j' : ℚ) (n : Nat), 1000 ≤ d → 0 ≤ j → j < 1000 → 0 ≤ j' →
      1 ≤ n → backoffDelay d maxD n j ≤ backoffDelay d maxD (n + 1) j') := by
  constructor
  · intro d maxD j n
    exact min_le_right _ _
  · intro d maxD j j' n hd hj hj1000 hj' hn
    unfold backoffDelay
    refine min_le_min ?_ le_rfl
    obtain ⟨k, rfl⟩ : ∃ k, n = k + 1 := ⟨n - 1, by omega⟩
    have hk : (k + 1) - 1 = k := by omega
    have hk2 : (k + 1 + 1) - 1 = k + 1 := by omega
    rw [hk, hk2, pow_succ]
    have h1 : (1 : ℚ) ≤ 2 ^ k := one_le_pow₀ (by norm_num)
    have h2 : d ≤ d * 2 ^ k := le_mul_of_one_le_right (by linarith) h1
    nlinarith

theorem c6_backoff_amended_witness :
    backoffDelay 1000 30000 1 0 ≤ 30000 ∧
    backoffDelay 1000 30000 1 999 ≤ backoffDelay 1000 30000 2 0 := by
  have h := c6_backoff_amended
  exact ⟨h.1 1000 30000 0 1,
    h.2 1000 30000 999 0 1 (by norm_num) (by norm_num) (by norm_num)
      (by norm_num) (by norm_num)⟩

/-- Claim C7 (counterexample).  Two handlers are registered for "price"
at the start of the dispatch; handler 1, invoked first, unsubscribes
handler 2.  Because `handleMessage` iterates the live `Set` rather than
a snapshot, handler 2 is skipped: the dispatch invokes handler 1 only,
refuting "every handler registered at the start is invoked exactly
once". -/
theorem c7_live_set_counterexample :
    regGet [("price", [1, 2])] "price" = some [1, 2] ∧
    handleMessage
        (fun h => if h = 1 then ⟨[("price", 2)], false⟩ else ⟨[], false⟩)
        "price" [("price", [1, 2])] =
      Except.ok ([DispatchEff.invoked 1], [("price", [1])]) ∧
    DispatchEff.invoked 2 ∉ [DispatchEff.invoked 1] := by
  refine ⟨by decide, rfl, by decide⟩

/-- Claim C7 (amended).  Iteration is over the live handler set, not a
snapshot.  What does hold: no handler is ever invoked twice in one
dispatch (for arbitrary mid-dispatch unsubscriptions), and when handlers
unsubscribe at most themselves, every handler registered at the start of
the dispatch is invoked exactly once, in registration order.  A handler
unregistered by an EARLIER handler of the same dispatch, before being
visited, is skipped (see the counterexample). -/
theorem c7_dispatch_amended :
    (∀ (beh : HandlerId → HandlerBeh) (ev : String) (fuel : Nat)
        (cur visited : List HandlerId) (r : Reg),
      (invokedOf (forEachLive beh ev fuel cur visited r).1).Nodup) ∧
    (∀ (beh : HandlerId → HandlerBeh) (ev : String) (r : Reg)
        (cur : List HandlerId),
      regGet r ev = some cur → cur.Nodup →
      (∀ h, (beh h).unsubs = [] ∨ (beh h).unsubs = [(ev, h)]) →
      handleMessage beh ev r =
        Except.ok (forEachLive beh ev cur.length cur [] r) ∧
      invokedOf (forEachLive beh ev cur.length cur [] r).1 = cur) := by
  constructor
  · intro beh ev fuel cur visited r
    exact (forEachLive_invoked_nodup beh ev fuel cur visited r).1
  · intro beh ev r cur hget hnd hb
    refine ⟨by simp [handleMessage, hget], ?_⟩
    have hrun := forEachLive_self_unsub beh ev hb cur.length cur [] r hnd
      (by rw [filter_notVisited_nil])
    rw [hrun, filter_notVisited_nil]

theorem c7_dispatch_amended_witness :
    (invokedOf (forEachLive (fun h => ⟨[("price", h)], false⟩) "price" 2
      [4, 5] [] [("price", [4, 5])]).1).Nodup ∧
    invokedOf (forEachLive (fun h => ⟨[("price", h)], false⟩) "price" 2
      [4, 5] [] [("price", [4, 5])]).1 = [4, 5] := by
  have h := c7_dispatch_amended
  refine ⟨h.1 _ "price" 2 [4, 5] [] [("price", [4, 5])], ?_⟩
  exact (h.2 (fun h => ⟨[("price", h)], false⟩) "price" [("price", [4, 5])]
    [4, 5] (by decide) (by decide) (fun h => Or.inr rfl)).2

/-- Claim C8 (counterexample).  Connect then disconnect: the reconnect
timer is clear, but the connection-timeout guard timer armed by
`setupConnectionTimeout` (a local variable, never stored on the client)
is still armed after `disconnect()` — refuting "every timer created by
the Guard or Controller is tracked by the client and explicitly cleared
by disconnect()". -/
theorem c8_guard_timer_not_cleared :
    (((Machine.init 5).step MEv.connect).step MEv.disconnect).guards =
      [(1, 0)] ∧
    (((Machine.init 5).step MEv.connect).step MEv.disconnect).reconnectTimer =
      none := by
  refine ⟨by decide, by decide⟩

/-- Claim C8 (amended).  `disconnect()` cancels the pending reconnect
timer, and afterwards no event sequence short of a fresh `connect()`
ever produces another connection attempt; the connection-timeout guard
timer, however, is NOT tracked or cleared — it stays armed until expiry,
where firing it after disconnect is observably a no-op (no effect is
emitted and no attempt is made, because the guard body re-checks the
transport state). -/
theorem c8_disconnect_amended :
    ∀ m : Machine,
      (m.disconnect).reconnectTimer = none ∧
      (∀ evs : List MEv, (∀ e ∈ evs, e ≠ MEv.connect) →
        ((m.disconnect).steps evs).attempts = (m.disconnect).attempts) ∧
      (∀ tid : Nat,
        ((m.disconnect).step (MEv.guardFire tid)).trace =
          (m.disconnect).trace ∧
        ((m.disconnect).step (MEv.guardFire tid)).attempts =
          (m.disconnect).attempts) := by
  intro m
  have hinv : MInv m.disconnect := by
    cases hes : m.es <;>
      simp [Machine.disconnect, Machine.cleanup, Machine.clearReconnectTimer,
        MInv, hes]
  refine ⟨hinv.2, ?_, ?_⟩
  · intro evs hne
    exact (steps_quiescent hinv hne).1
  · intro tid
    by_cases hg : (m.disconnect).guards.any (fun p => p.1 = tid)
    · constructor <;> simp [Machine.step, hg, hinv.1]
    · constructor <;> simp [Machine.step, hg]

theorem c8_disconnect_amended_witness :
    (((Machine.init 5).step MEv.connect).disconnect).reconnectTimer = none ∧
    ((((Machine.init 5).step MEv.connect).disconnect).steps
      [MEv.guardFire 1, MEv.transportError]).attempts =
      (((Machine.init 5).step MEv.connect).disconnect).attempts := by
  have h := c8_disconnect_amended ((Machine.init 5).step MEv.connect)
  exact ⟨h.1, h.2.1 [MEv.guardFire 1, MEv.transportError] (by decide)⟩

/-- Claim C9 (confirmed).  With several handlers registered for a type
and no mid-dispatch unsubscription, a dispatch invokes every registered
handler in order even when some of them throw: a throwing handler is
caught and logged at the dispatch boundary, every other handler still
runs, and `handleMessage` completes normally, so nothing propagates into
the transport's event code. -/
theorem c9_handler_isolation :
    ∀ (beh : HandlerId → HandlerBeh) (ev : String) (r : Reg)
      (cur : List HandlerId),
      regGet r ev = some cur → cur.Nodup → (∀ h, (beh h).unsubs = []) →
      handleMessage beh ev r = Except.ok (cur.flatMap (effOf beh), r) ∧
      exceptOk (handleMessage beh ev r) = true ∧
      (∀ h ∈ cur, DispatchEff.invoked h ∈ cur.flatMap (effOf beh)) ∧
      (∀ h ∈ cur, (beh h).throws = true →
        DispatchEff.handlerErrorLogged h ∈ cur.flatMap (effOf beh)) := by
  intro beh ev r cur hget hnd hu
  have hrun := forEachLive_no_unsub beh ev hu cur.length cur [] r hnd
    (by rw [filter_notVisited_nil])
  rw [filter_notVisited_nil] at hrun
  have hmsg : handleMessage beh ev r =
      Except.ok (cur.flatMap (effOf beh), r) := by
    simp [handleMessage, hget, hrun]
  refine ⟨hmsg, by rw [hmsg]; rfl, ?_, ?_⟩
  · intro h hh
    exact List.mem_flatMap.mpr ⟨h, hh, by simp [effOf]⟩
  · intro h hh ht
    exact List.mem_flatMap.mpr ⟨h, hh, by simp [effOf, ht]⟩

theorem c9_handler_isolation_witness :
    handleMessage (fun h => ⟨[], decide (h = 1)⟩) "price"
      [("price", [1, 2])] =
      Except.ok ([DispatchEff.invoked 1, DispatchEff.handlerErrorLogged 1,
        DispatchEff.invoked 2], [("price", [1, 2])]) := by
  have h := c9_handler_isolation (fun h => ⟨[], decide (h = 1)⟩) "price"
    [("price", [1, 2])] [1, 2] (by decide) (by decide) (fun h => rfl)
  rw [h.1]
  rfl

/-- Claim C10 (confirmed).  The unsubscribe closure, `disconnect`, the
stream-path cleanup and the poll-path cleanup are all idempotent state
transformers: a second invocation changes nothing (so it emits no close
hooks, removes no further registration and releases no resource twice),
and none of them can fail — the source's null-guards are total `Option`
matches in the model.  The registry hypothesis is key uniqueness, which
every JS `Map` satisfies. -/
theorem c10_idempotent_cleanup :
    (∀ (r : Reg) (ev : String) (h : HandlerId), regWF r →
      regUnsub (regUnsub r ev h) ev h = regUnsub r ev h) ∧
    (∀ m : Machine, (m.disconnect).disconnect = m.disconnect) ∧
    (∀ (a : AdapterState) (h1 h2 : HandlerId), regWF a.reg →
      streamCleanup h1 h2 (streamCleanup h1 h2 a) = streamCleanup h1 h2 a) ∧
    (∀ p : Option Nat, pollCleanup (pollCleanup p) = pollCleanup p) := by
  have hdisc : ∀ m : Machine, (m.disconnect).disconnect = m.disconnect := by
    intro m
    obtain ⟨es, ra, rt, man, mx, gs, ni, att, tr⟩ := m
    cases es <;>
      simp [Machine.disconnect, Machine.cleanup, Machine.clearReconnectTimer]
  refine ⟨?_, hdisc, ?_, fun p => rfl⟩
  · intro r ev h wf
    exact regUnsub_idem wf ev h
  · intro a h1 h2 wf
    have wf1 : regWF (regUnsub a.reg "position" h1) := regWF_regUnsub wf _ _
    have wf2 : regWF (regUnsub (regUnsub a.reg "position" h1) "positions" h2) :=
      regWF_regUnsub wf1 _ _
    have st2 : regStable
        (regUnsub (regUnsub a.reg "position" h1) "positions" h2)
        "position" h1 :=
      regStable_regUnsub_ne (by decide) (regStable_regUnsub _ _ _)
    show (⟨regUnsub (regUnsub (regUnsub (regUnsub a.reg "position" h1)
        "positions" h2) "position" h1) "positions" h2,
        (a.client.disconnect).disconnect⟩ : AdapterState) =
      ⟨regUnsub (regUnsub a.reg "position" h1) "positions" h2,
        a.client.disconnect⟩
    rw [regUnsub_noop wf2 st2, regUnsub_noop wf2 (regStable_regUnsub _ _ _),
      hdisc]

theorem c10_idempotent_cleanup_witness :
    regWF [("position", [3]), ("positions", [4])] ∧
    streamCleanup 3 4 (streamCleanup 3 4
      ⟨[("position", [3]), ("positions", [4])], Machine.init 5⟩) =
      streamCleanup 3 4
        ⟨[("position", [3]), ("positions", [4])], Machine.init 5⟩ := by
  refine ⟨by unfold regWF; decide, ?_⟩
  exact c10_idempotent_cleanup.2.2.1
    ⟨[("position", [3]), ("positions", [4])], Machine.init 5⟩ 3 4
    (by unfold regWF; decide)

end SSEModel
